import Mathlib

/-!
Verification of the TOTP generator (`generate_totp` in
`src/python/mfa-handling/main.py` and `src/python/playwright-mfa-handling/main.py`,
both copies are character-for-character identical in the function body) and of the
bounded download poller (`save_downloads_with_retry` in
`src/python/download-financial-statements/main.py` and
`src/python/browserbase-reducto/main.py`).

Python strings are modelled as `List Char`; Python `bytes` as `List Nat` with
every element below 256; Python `int` as `Int` (or `Nat` where the source value
is provably non-negative).  Raising an exception is modelled with `Except`.
-/

/-- The character U+212A KELVIN SIGN.  Python lowercases it to the ASCII
`k` while uppercasing leaves it unchanged, which makes lowercase-then-
process differ from processing the original secret. -/
def kelvinSign : Char :=
  Char.ofNat 8490

/-- Per-character model of Python `str.lower`: exact on the ASCII range and
on U+212A KELVIN SIGN (lowercased by Python to the ASCII `k`); other
non-ASCII characters are left unchanged.  Python carries further Unicode
case mappings that are not modelled; the normalization theorem therefore
quantifies over ASCII secrets, and the kelvin sign furnishes its
counterexample. -/
def pyLower (c : Char) : Char :=
  if 65 ≤ c.toNat ∧ c.toNat ≤ 90 then Char.ofNat (c.toNat + 32)
  else if c.toNat = 8490 then 'k'
  else c

/-- Per-character model of Python `str.upper`: exact on the ASCII range
(and on U+212A, which Python leaves unchanged); Python additionally maps a
few non-ASCII letters (for instance LATIN SMALL LETTER LONG S to `S`),
which is not modelled.  Every theorem below that quantifies over arbitrary
secrets is uniform in the decoded key or applies this cleaning identically
to both sides, except the normalization theorem, which restricts itself to
ASCII secrets. -/
def pyUpper (c : Char) : Char :=
  if 97 ≤ c.toNat ∧ c.toNat ≤ 122 then Char.ofNat (c.toNat - 32) else c

/-- Model of Python `s.rstrip("=")`: remove every trailing `=`. -/
def rstripEq (s : List Char) : List Char :=
  (s.reverse.dropWhile (fun c => c == '=')).reverse

/-- The cleaned secret: `secret.upper().rstrip("=")` (line 33 of
`mfa-handling/main.py`). -/
def cleanSecret (s : List Char) : List Char :=
  rstripEq (s.map pyUpper)

/-- The constant `base32chars = "ABCDEFGHIJKLMNOPQRSTUVWXYZ234567"` (line 29). -/
def base32chars : List Char :=
  "ABCDEFGHIJKLMNOPQRSTUVWXYZ234567".data

/-- First index of a character in a list, if present: models Python
`str.find` (which returns -1 when absent, modelled by `none`). -/
def findIdx : List Char → Char → Option Nat
  | [], _ => none
  | a :: rest, c => if a == c then some 0 else (findIdx rest c).map (· + 1)

/-- Models `base32chars.find(char)` (line 36). -/
def b32find (c : Char) : Option Nat :=
  findIdx base32chars c

/-- Models `format(val, "05b")` for `val < 32`: the five bits of `val`, most
significant first, as a list of 0/1 naturals. -/
def to5bits (v : Nat) : List Nat :=
  [v / 16 % 2, v / 8 % 2, v / 4 % 2, v / 2 % 2, v % 2]

/-- The bit string accumulated by the first `for` loop (lines 35-39): the
5-bit groups of every character concatenated, or `none` as soon as one
character is not in the alphabet (the loop raises `ValueError`). -/
def allBits : List Char → Option (List Nat)
  | [] => some []
  | c :: rest =>
    match b32find c, allBits rest with
    | some v, some bs => some (to5bits v ++ bs)
    | _, _ => none

/-- The second `for` loop (lines 41-43): `range(0, len(bits) - 3, 4)` walks the
complete 4-bit chunks of the bit string, dropping a trailing group of fewer
than 4 bits; each chunk becomes one hex digit (here kept as its value < 16). -/
def nibbles : List Nat → List Nat
  | b1 :: b2 :: b3 :: b4 :: rest => (8 * b1 + 4 * b2 + 2 * b3 + b4) :: nibbles rest
  | _ => []

/-- Models `bytes.fromhex(hex_str)` (line 45) on a list of hex-digit values: pairs of
hex digits become bytes; an odd number of hex digits makes Python raise
`ValueError`, modelled by `none`. -/
def fromhex : List Nat → Option (List Nat)
  | [] => some []
  | [_] => none
  | h1 :: h2 :: rest => (fromhex rest).map (fun bs => (16 * h1 + h2) :: bs)

/-- The failure modes of `generate_totp`:
`invalidSecret` is `ValueError("Invalid base32 character in secret")` (line 38),
`invalidHex` is the `ValueError` raised by `bytes.fromhex` on an odd-length
hex string (line 45), and `overflow` is the `OverflowError` raised by
`int.to_bytes` on a negative or too-large integer (line 49). -/
inductive TotpErr where
  | invalidSecret
  | invalidHex
  | overflow
deriving DecidableEq, Repr

/-- Lines 29-45 of `mfa-handling/main.py`: from the raw secret to
`secret_bytes`. -/
def decodeKey (s : List Char) : Except TotpErr (List Nat) :=
  match allBits (cleanSecret s) with
  | none => .error .invalidSecret
  | some bits =>
    match fromhex (nibbles bits) with
    | none => .error .invalidHex
    | some bs => .ok bs

/-- Regrouping a bit string into 8-bit bytes, discarding a trailing group of
fewer than 8 bits.  Used only by `specBase32Decode` below. -/
def bytes8 : List Nat → List Nat
  | b1 :: b2 :: b3 :: b4 :: b5 :: b6 :: b7 :: b8 :: rest =>
    (128 * b1 + 64 * b2 + 32 * b3 + 16 * b4 + 8 * b5 + 4 * b6 + 2 * b7 + b8) :: bytes8 rest
  | _ => []

/-- Modelled from the spec (section 4.1 step 1), for comparison with
`decodeKey`: map each character of the cleaned string to its 5-bit alphabet
index, concatenate the bits, regroup into 8-bit bytes and discard any trailing
incomplete byte; fails only when a character is outside the alphabet. -/
def specBase32Decode (cleaned : List Char) : Option (List Nat) :=
  (allBits cleaned).map bytes8

/-- Models `n.to_bytes(k, byteorder="big")` for `n < 2 ^ (8 * k)`: the `k` bytes of
`n`, most significant first. -/
def toBytesBE : Nat → Nat → List Nat
  | 0, _ => []
  | k + 1, n => toBytesBE k (n >>> 8) ++ [n &&& 0xFF]

/-- The 64-byte chunks of a list (the fuel argument is an upper bound on the
number of chunks; it is instantiated with the length of the list). -/
def chunks64 : Nat → List Nat → List (List Nat)
  | 0, _ => []
  | _, [] => []
  | f + 1, l => l.take 64 :: chunks64 f (l.drop 64)

/-- The 32-bit big-endian words of a byte list (complete groups of 4). -/
def w32 : List Nat → List Nat
  | b1 :: b2 :: b3 :: b4 :: rest =>
    (((b1 <<< 8 ||| b2) <<< 8 ||| b3) <<< 8 ||| b4) :: w32 rest
  | _ => []

/-- The 32-bit left rotation. -/
def rotl (n x : Nat) : Nat :=
  ((x <<< n) ||| (x >>> (32 - n))) &&& 0xFFFFFFFF

/-- The SHA-1 round function. -/
def sha1F (i b c d : Nat) : Nat :=
  if i < 20 then (b &&& c) ||| ((b ^^^ 0xFFFFFFFF) &&& d)
  else if i < 40 then b ^^^ c ^^^ d
  else if i < 60 then (b &&& c) ||| (b &&& d) ||| (c &&& d)
  else b ^^^ c ^^^ d

/-- The SHA-1 round constants. -/
def sha1K (i : Nat) : Nat :=
  if i < 20 then 0x5A827999
  else if i < 40 then 0x6ED9EBA1
  else if i < 60 then 0x8F1BBCDC
  else 0xCA62C1D6

/-- Message-schedule expansion: extend the 16 block words by `fuel` more
words (instantiated with 64, giving 80 words). -/
def sha1Extend : List Nat → Nat → List Nat
  | ws, 0 => ws
  | ws, f + 1 =>
    let n := ws.length
    let wNew := rotl 1 ((ws.getD (n - 3) 0) ^^^ (ws.getD (n - 8) 0) ^^^
      (ws.getD (n - 14) 0) ^^^ (ws.getD (n - 16) 0))
    sha1Extend (ws ++ [wNew]) f

/-- The 80 compression rounds of one SHA-1 block. -/
def sha1Rounds (ws : List Nat) :
    Nat × Nat × Nat × Nat × Nat → List Nat → Nat × Nat × Nat × Nat × Nat
  | st, [] => st
  | (a, b, c, d, e), i :: rest =>
    let t := (rotl 5 a + sha1F i b c d + e + sha1K i + ws.getD i 0) &&& 0xFFFFFFFF
    sha1Rounds ws (t, a, rotl 30 b, c, d) rest

/-- Process one 64-byte block. -/
def sha1Compress (h : Nat × Nat × Nat × Nat × Nat) (block : List Nat) :
    Nat × Nat × Nat × Nat × Nat :=
  let ws := sha1Extend (w32 block) 64
  let (a, b, c, d, e) := sha1Rounds ws h (List.range 80)
  ((h.1 + a) &&& 0xFFFFFFFF, (h.2.1 + b) &&& 0xFFFFFFFF, (h.2.2.1 + c) &&& 0xFFFFFFFF,
    (h.2.2.2.1 + d) &&& 0xFFFFFFFF, (h.2.2.2.2 + e) &&& 0xFFFFFFFF)

/-- SHA-1 padding: append `0x80`, zeros up to 56 mod 64, then the bit length
as an 8-byte big-endian integer. -/
def sha1Pad (msg : List Nat) : List Nat :=
  let l := msg.length
  msg ++ [0x80] ++ List.replicate ((119 - l % 64) % 64) 0 ++ toBytesBE 8 ((8 * l) % 2 ^ 64)

/-- SHA-1 of a byte list, as the 20-byte digest.  Models Python
`hashlib.sha1(msg).digest()`. -/
def sha1 (msg : List Nat) : List Nat :=
  let padded := sha1Pad msg
  let h := (chunks64 padded.length padded).foldl sha1Compress
    (0x67452301, 0xEFCDAB89, 0x98BADCFE, 0x10325476, 0xC3D2E1F0)
  toBytesBE 4 h.1 ++ toBytesBE 4 h.2.1 ++ toBytesBE 4 h.2.2.1 ++
    toBytesBE 4 h.2.2.2.1 ++ toBytesBE 4 h.2.2.2.2

/-- Models `hmac.new(key, msg, hashlib.sha1).digest()` (line 52): HMAC with block
size 64, inner pad `0x36`, outer pad `0x5C`. -/
def hmacSha1 (key msg : List Nat) : List Nat :=
  let k0 := if 64 < key.length then sha1 key else key
  let kp := k0 ++ List.replicate (64 - k0.length) 0
  sha1 ((kp.map (fun b => b ^^^ 0x5C)) ++ sha1 ((kp.map (fun b => b ^^^ 0x36)) ++ msg))

/-- Models `time_window = int(time.time() // 30) + window` (line 48), with the clock
reading `t` (a non-negative number of Unix seconds) passed explicitly. -/
def totpCounter (t : Nat) (window : Int) : Int :=
  ((t / 30 : Nat) : Int) + window

/-- Dynamic truncation (lines 55-61): `offset = digest[-1] & 0xF`, then the
four bytes at `offset` combined big-endian with the top bit cleared. -/
def dynTrunc (digest : List Nat) : Nat :=
  let off := digest.getLastD 0 &&& 0xF
  ((digest.getD off 0 &&& 0x7F) <<< 24) |||
    ((digest.getD (off + 1) 0 &&& 0xFF) <<< 16) |||
    ((digest.getD (off + 2) 0 &&& 0xFF) <<< 8) |||
    (digest.getD (off + 3) 0 &&& 0xFF)

/-- The decimal digit character for `n < 10`. -/
def decDigit (n : Nat) : Char :=
  Char.ofNat (48 + n)

/-- Fuel-driven decimal printing; the fuel is instantiated with `n + 1`,
which is always sufficient. -/
def natToDecAux : Nat → Nat → List Char
  | 0, _ => []
  | f + 1, n => if n < 10 then [decDigit n] else natToDecAux f (n / 10) ++ [decDigit (n % 10)]

/-- Models `str(n)` for a non-negative integer `n`. -/
def natToDec (n : Nat) : List Char :=
  natToDecAux (n + 1) n

/-- Models `s.zfill(w)` for a digit string: left-pad with `0` to width `w`. -/
def zfill (w : Nat) (s : List Char) : List Char :=
  List.replicate (w - s.length) '0' ++ s

/-- Lines 48-64 of `mfa-handling/main.py`, from the decoded key and the time
counter to the returned string: serialize the counter as 8 big-endian bytes
(`OverflowError` when negative or not below `2 ^ 64`), HMAC-SHA1, dynamic
truncation, reduce mod 1000000, print and zero-fill to 6 characters. -/
def totpAtCounter (key : List Nat) (tw : Int) : Except TotpErr (List Char) :=
  if tw < 0 then .error .overflow
  else if (2 : Int) ^ 64 ≤ tw then .error .overflow
  else
    .ok (zfill 6 (natToDec (dynTrunc (hmacSha1 key (toBytesBE 8 tw.toNat)) % 1000000)))

/-- Models `generate_totp(secret, window)` evaluated with the ambient clock reading
`t` Unix seconds: the whole function body, lines 29-64 of
`mfa-handling/main.py` (identical in `playwright-mfa-handling/main.py`,
lines 34-69). -/
def generate_totp (secret : List Char) (window : Int) (t : Nat) : Except TotpErr (List Char) :=
  match decodeKey secret with
  | .error e => .error e
  | .ok key => totpAtCounter key (totpCounter t window)

/-- Models `30 - (int(time.time()) % 30)` (line 126 of `mfa-handling/main.py`): the
companion seconds-remaining helper. -/
def secondsLeft (t : Nat) : Nat :=
  30 - t % 30

/-- Outcome of one probe of the downloads API (the body of the `try` block:
`bb.sessions.downloads.list` followed by `response.read`): either a byte
buffer or a raised exception carrying its message. -/
inductive ProbeResult where
  | buffer (b : List Nat)
  | exn (msg : List Char)
deriving DecidableEq

/-- How one call of `save_downloads_with_retry` can end: a normal `return n`
(`n` the size written, or 0 for the benign not-found case), the
`TimeoutError("Download timeout exceeded")`, or a propagated probe
exception with its message. -/
inductive PollOutcome where
  | success (n : Nat)
  | timeoutExceeded
  | raised (msg : List Char)
deriving DecidableEq

/-- The two call sites differ only in the readiness threshold on the buffer
length and in the list of message fragments treated as the benign
session-gone case; `timeoutSec` is `retry_for_seconds`. -/
structure PollConfig where
  threshold : Nat
  markers : List (List Char)
  timeoutSec : Nat

/-- Whether `needle` occurs at the start of `hay`. -/
def startsWithL : List Char → List Char → Bool
  | _, [] => true
  | [], _ :: _ => false
  | a :: hs, b :: ns => a == b && startsWithL hs ns

/-- Python `needle in hay`: substring containment. -/
def containsSub (hay needle : List Char) : Bool :=
  if startsWithL hay needle then true
  else
    match hay with
    | [] => false
    | _ :: t => containsSub t needle

/-- The marker `"Session with given id not found"` (line 76 of
`browserbase-reducto/main.py`). -/
def notFoundMark : List Char :=
  "Session with given id not found".data

/-- The marker `"-32001"` (same line). -/
def rpcGoneMark : List Char :=
  "-32001".data

/-- The `download-financial-statements/main.py` call site: readiness is
`len(download_buffer) > 0` and every probe exception is re-raised. -/
def dfsConfig (retrySec : Nat) : PollConfig :=
  ⟨0, [], retrySec⟩

/-- The `browserbase-reducto/main.py` call site: readiness is
`len(download_buffer) > 100` and a probe exception whose message contains
one of the two markers makes the function `return 0`. -/
def reductoConfig (retrySec : Nat) : PollConfig :=
  ⟨100, [notFoundMark, rpcGoneMark], retrySec⟩

/-- The `while True` loop of `save_downloads_with_retry` (lines 43-77 of
`download-financial-statements/main.py`, lines 47-83 of
`browserbase-reducto/main.py`).  `elapsed k` is the elapsed time measured at
the top of iteration `k` (the source reads the event-loop clock there);
`probe k` is the outcome of the k-th probe of the downloads API; `fuel`
bounds the number of iterations modelled (`none` means the loop was still
running after `fuel` iterations).  The returned `Nat` counts the probe calls
made.  Iteration `k`: first the deadline check, which raises `TimeoutError`;
then the probe; a buffer above the threshold is written to disk (a side
effect outside this model) and its length returned; a buffer at or below the
threshold sleeps `interval` seconds and loops; an exception matching a
marker returns 0; any other exception is re-raised. -/
def save_downloads_with_retry (cfg : PollConfig) (elapsed : Nat → Nat)
    (probe : Nat → ProbeResult) : Nat → Nat → Option (PollOutcome × Nat)
  | 0, _ => none
  | fuel + 1, k =>
    if cfg.timeoutSec ≤ elapsed k then some (.timeoutExceeded, k)
    else
      match probe k with
      | .buffer b =>
        if cfg.threshold < b.length then some (.success b.length, k + 1)
        else save_downloads_with_retry cfg elapsed probe fuel (k + 1)
      | .exn msg =>
        if cfg.markers.any (fun m => containsSub msg m) then some (.success 0, k + 1)
        else some (.raised msg, k + 1)

/-! ### Helper lemmas -/

theorem toNat_ofNat_valid {n : Nat} (h : n < 55296) : (Char.ofNat n).toNat = n := by
  have hv : n.isValidChar := Or.inl h
  rw [Char.ofNat, dif_pos hv]
  rfl

theorem pyUpper_pyLower_ascii {c : Char} (h128 : c.toNat < 128) :
    pyUpper (pyLower c) = pyUpper c := by
  by_cases h : 65 ≤ c.toNat ∧ c.toNat ≤ 90
  · unfold pyLower pyUpper
    rw [if_pos h]
    have hv : (Char.ofNat (c.toNat + 32)).toNat = c.toNat + 32 :=
      toNat_ofNat_valid (by omega)
    rw [hv, if_pos (by omega), if_neg (by omega)]
    have h32 : c.toNat + 32 - 32 = c.toNat := by omega
    rw [h32, Char.ofNat_toNat]
  · have hl : pyLower c = c := by
      unfold pyLower
      rw [if_neg h, if_neg (by omega)]
    rw [hl]

theorem map_pyUpper_pyLower_ascii {s : List Char} (h : ∀ c ∈ s, c.toNat < 128) :
    (s.map pyLower).map pyUpper = s.map pyUpper := by
  rw [List.map_map]
  exact List.map_congr_left (fun c hc => pyUpper_pyLower_ascii (h c hc))

theorem dropWhile_replicate_append (k : Nat) (xs : List Char) :
    (List.replicate k '=' ++ xs).dropWhile (fun c => c == '=') =
      xs.dropWhile (fun c => c == '=') := by
  induction k with
  | zero => simp
  | succ k ih =>
    rw [List.replicate_succ, List.cons_append, List.dropWhile_cons, if_pos (by decide)]
    exact ih

theorem rstripEq_append_pad (s : List Char) (k : Nat) :
    rstripEq (s ++ List.replicate k '=') = rstripEq s := by
  unfold rstripEq
  rw [List.reverse_append, List.reverse_replicate, dropWhile_replicate_append]

theorem cleanSecret_lower_ascii {s : List Char} (h : ∀ c ∈ s, c.toNat < 128) :
    cleanSecret (s.map pyLower) = cleanSecret s := by
  unfold cleanSecret
  rw [map_pyUpper_pyLower_ascii h]

theorem cleanSecret_pad (s : List Char) (k : Nat) :
    cleanSecret (s ++ List.replicate k '=') = cleanSecret s := by
  unfold cleanSecret
  rw [List.map_append, List.map_replicate]
  have hEq : pyUpper '=' = '=' := by decide
  rw [hEq, rstripEq_append_pad]

theorem decDigit_isDigit {n : Nat} (h : n < 10) : (decDigit n).isDigit = true := by
  interval_cases n <;> decide

theorem natToDecAux_digits :
    ∀ f n, ∀ c ∈ natToDecAux f n, c.isDigit = true := by
  intro f
  induction f with
  | zero => intro n c hc; simp [natToDecAux] at hc
  | succ f ih =>
    intro n c hc
    rw [natToDecAux] at hc
    by_cases h10 : n < 10
    · rw [if_pos h10] at hc
      simp at hc
      subst hc
      exact decDigit_isDigit h10
    · rw [if_neg h10] at hc
      rcases List.mem_append.1 hc with h | h
      · exact ih (n / 10) c h
      · simp at h
        subst h
        exact decDigit_isDigit (Nat.mod_lt n (by omega))

theorem natToDecAux_length :
    ∀ d f n, n < f → n < 10 ^ (d + 1) → (natToDecAux f n).length ≤ d + 1 := by
  intro d
  induction d with
  | zero =>
    intro f n hf h10
    match f, hf with
    | f' + 1, _ =>
      rw [natToDecAux, if_pos (by simpa using h10)]
      simp
  | succ d ih =>
    intro f n hf hlt
    match f, hf with
    | f' + 1, hf =>
      rw [natToDecAux]
      by_cases h10 : n < 10
      · rw [if_pos h10]
        simp
      · rw [if_neg h10]
        have hdiv : n / 10 < f' := by
          have h1 : n / 10 < n := Nat.div_lt_self (by omega) (by omega)
          omega
        have hlt' : n / 10 < 10 ^ (d + 1) := by
          rw [Nat.div_lt_iff_lt_mul (by omega)]
          calc n < 10 ^ (d + 1 + 1) := hlt
          _ = 10 ^ (d + 1) * 10 := by ring
        have := ih f' (n / 10) hdiv hlt'
        rw [List.length_append]
        simp only [List.length_singleton]
        omega

theorem natToDec_length_le {n : Nat} (h : n < 10 ^ 6) : (natToDec n).length ≤ 6 := by
  have := natToDecAux_length 5 (n + 1) n (Nat.lt_succ_self n) (by simpa using h)
  simpa [natToDec] using this

theorem natToDec_digits {n : Nat} : ∀ c ∈ natToDec n, c.isDigit = true :=
  natToDecAux_digits (n + 1) n

theorem zfill_length {s : List Char} (h : s.length ≤ 6) : (zfill 6 s).length = 6 := by
  unfold zfill
  rw [List.length_append, List.length_replicate]
  omega

theorem zfill_digits {s : List Char} (h : ∀ c ∈ s, c.isDigit = true) :
    (zfill 6 s).all Char.isDigit = true := by
  unfold zfill
  rw [List.all_append]
  refine Bool.and_eq_true_iff.2 ⟨?_, ?_⟩
  · rw [List.all_eq_true]
    intro c hc
    have := List.eq_of_mem_replicate hc
    subst this
    decide
  · rw [List.all_eq_true]
    exact h

theorem dynTrunc_lt (d : List Nat) : dynTrunc d < 2 ^ 31 := by
  unfold dynTrunc
  have hb : ∀ x : Nat, x &&& 0xFF < 2 ^ 31 := by
    intro x
    have : x &&& 0xFF ≤ 0xFF := Nat.and_le_right
    omega
  apply Nat.or_lt_two_pow
  apply Nat.or_lt_two_pow
  apply Nat.or_lt_two_pow
  · have h7 : d.getD (d.getLastD 0 &&& 0xF) 0 &&& 0x7F ≤ 0x7F := Nat.and_le_right
    rw [Nat.shiftLeft_eq]
    calc (d.getD (d.getLastD 0 &&& 0xF) 0 &&& 0x7F) * 2 ^ 24 ≤ 0x7F * 2 ^ 24 :=
      Nat.mul_le_mul_right _ h7
    _ < 2 ^ 31 := by norm_num
  · have h8 : d.getD ((d.getLastD 0 &&& 0xF) + 1) 0 &&& 0xFF ≤ 0xFF := Nat.and_le_right
    rw [Nat.shiftLeft_eq]
    calc (d.getD ((d.getLastD 0 &&& 0xF) + 1) 0 &&& 0xFF) * 2 ^ 16 ≤ 0xFF * 2 ^ 16 :=
      Nat.mul_le_mul_right _ h8
    _ < 2 ^ 31 := by norm_num
  · have h8 : d.getD ((d.getLastD 0 &&& 0xF) + 2) 0 &&& 0xFF ≤ 0xFF := Nat.and_le_right
    rw [Nat.shiftLeft_eq]
    calc (d.getD ((d.getLastD 0 &&& 0xF) + 2) 0 &&& 0xFF) * 2 ^ 8 ≤ 0xFF * 2 ^ 8 :=
      Nat.mul_le_mul_right _ h8
    _ < 2 ^ 31 := by norm_num
  · exact hb _

theorem totpAtCounter_format {key : List Nat} {tw : Int} {out : List Char}
    (h : totpAtCounter key tw = .ok out) :
    out.length = 6 ∧ out.all Char.isDigit = true ∧
      ∃ v, v < 2 ^ 31 ∧ out = zfill 6 (natToDec (v % 1000000)) := by
  unfold totpAtCounter at h
  split at h
  · exact absurd h (by simp)
  · split at h
    · exact absurd h (by simp)
    · have hout : zfill 6 (natToDec
          (dynTrunc (hmacSha1 key (toBytesBE 8 tw.toNat)) % 1000000)) = out := by
        simpa using h
      subst hout
      have hmod : dynTrunc (hmacSha1 key (toBytesBE 8 tw.toNat)) % 1000000 < 10 ^ 6 :=
        Nat.mod_lt _ (by norm_num)
      refine ⟨zfill_length (natToDec_length_le hmod), zfill_digits natToDec_digits,
        dynTrunc (hmacSha1 key (toBytesBE 8 tw.toNat)), dynTrunc_lt _, rfl⟩

theorem poll_step (cfg : PollConfig) (elapsed : Nat → Nat) (probe : Nat → ProbeResult)
    (f k : Nat) :
    save_downloads_with_retry cfg elapsed probe (f + 1) k =
      if cfg.timeoutSec ≤ elapsed k then some (.timeoutExceeded, k)
      else
        match probe k with
        | .buffer b =>
          if cfg.threshold < b.length then some (.success b.length, k + 1)
          else save_downloads_with_retry cfg elapsed probe f (k + 1)
        | .exn msg =>
          if cfg.markers.any (fun m => containsSub msg m) then some (.success 0, k + 1)
          else some (.raised msg, k + 1) := rfl

theorem poll_notReady_timeout (cfg : PollConfig) (elapsed : Nat → Nat)
    (probe : Nat → ProbeResult)
    (hnr : ∀ i, ∃ b, probe i = ProbeResult.buffer b ∧ b.length ≤ cfg.threshold) :
    ∀ fuel k, cfg.timeoutSec ≤ elapsed (k + fuel) →
      ∃ n, n ≤ k + fuel ∧ save_downloads_with_retry cfg elapsed probe (fuel + 1) k =
        some (PollOutcome.timeoutExceeded, n) := by
  intro fuel
  induction fuel with
  | zero =>
    intro k hk
    refine ⟨k, Nat.le_refl k, ?_⟩
    rw [poll_step, if_pos (by simpa using hk)]
  | succ f ih =>
    intro k hk
    by_cases hdl : cfg.timeoutSec ≤ elapsed k
    · exact ⟨k, by omega, by rw [poll_step, if_pos hdl]⟩
    · obtain ⟨b, hb, hlen⟩ := hnr k
      have hshift : (k + 1) + f = k + (f + 1) := by omega
      obtain ⟨n, hn, hres⟩ := ih (k + 1) (by rw [hshift]; exact hk)
      refine ⟨n, by omega, ?_⟩
      rw [poll_step, if_neg hdl, hb]
      simp only
      rw [if_neg (by omega)]
      exact hres

theorem poll_dfs_success_ready (r : Nat) (elapsed : Nat → Nat) (probe : Nat → ProbeResult) :
    ∀ fuel k n m,
      save_downloads_with_retry (dfsConfig r) elapsed probe fuel k =
        some (PollOutcome.success n, m) →
      ∃ i b, k ≤ i ∧ i < m ∧ probe i = ProbeResult.buffer b ∧ 0 < b.length ∧
        n = b.length := by
  intro fuel
  induction fuel with
  | zero =>
    intro k n m h
    exact absurd h (by rw [save_downloads_with_retry]; simp)
  | succ f ih =>
    intro k n m h
    rw [poll_step] at h
    by_cases hdl : (dfsConfig r).timeoutSec ≤ elapsed k
    · rw [if_pos hdl] at h
      simp at h
    · rw [if_neg hdl] at h
      cases hp : probe k with
      | buffer b =>
        rw [hp] at h
        simp only at h
        by_cases hrd : (dfsConfig r).threshold < b.length
        · rw [if_pos hrd] at h
          simp only [Option.some.injEq, Prod.mk.injEq, PollOutcome.success.injEq] at h
          obtain ⟨hn, hm⟩ := h
          exact ⟨k, b, Nat.le_refl k, by omega, hp, hrd, hn.symm⟩
        · rw [if_neg hrd] at h
          obtain ⟨i, b', hki, him, hpi, hlen, hn⟩ := ih (k + 1) n m h
          exact ⟨i, b', by omega, him, hpi, hlen, hn⟩
      | exn msg =>
        rw [hp] at h
        simp [dfsConfig] at h

/-! ### Claim theorems -/

/-- C4: poller deadline discipline.  First part: at any iteration whose
elapsed time has reached `timeout_seconds`, the loop raises `TimeoutError`
without consulting the probe (the statement holds for every probe function,
and the probe-call count returned is exactly the number of earlier
iterations).  Second part: with a probe that never reports ready and never
raises, as soon as some iteration index has elapsed time at or past the
deadline the loop terminates in `TimeoutError` after at most that many probe
calls. -/
theorem C4_poller_deadline :
    (∀ (cfg : PollConfig) (elapsed : Nat → Nat) (probe : Nat → ProbeResult) (fuel k : Nat),
        cfg.timeoutSec ≤ elapsed k →
        save_downloads_with_retry cfg elapsed probe (fuel + 1) k =
          some (PollOutcome.timeoutExceeded, k)) ∧
      (∀ (cfg : PollConfig) (elapsed : Nat → Nat) (probe : Nat → ProbeResult),
        (∀ i, ∃ b, probe i = ProbeResult.buffer b ∧ b.length ≤ cfg.threshold) →
        ∀ K, cfg.timeoutSec ≤ elapsed K →
        ∃ n, n ≤ K ∧ save_downloads_with_retry cfg elapsed probe (K + 1) 0 =
          some (PollOutcome.timeoutExceeded, n)) := by
  constructor
  · intro cfg elapsed probe fuel k hk
    rw [poll_step, if_pos hk]
  · intro cfg elapsed probe hnr K hK
    have := poll_notReady_timeout cfg elapsed probe hnr K 0 (by simpa using hK)
    simpa using this

/-- Witness for C4 at a concrete configuration: threshold 0, no markers,
timeout 1, clock advancing 2 per iteration, probe always returning an empty
buffer. -/
theorem C4_poller_deadline_witness :
    save_downloads_with_retry (dfsConfig 1) (fun k => 2 * k)
        (fun _ => ProbeResult.buffer []) 6 5 = some (PollOutcome.timeoutExceeded, 5) ∧
      ∃ n, n ≤ 1 ∧ save_downloads_with_retry (dfsConfig 1) (fun k => 2 * k)
        (fun _ => ProbeResult.buffer []) 2 0 = some (PollOutcome.timeoutExceeded, n) :=
  ⟨C4_poller_deadline.1 (dfsConfig 1) (fun k => 2 * k) (fun _ => ProbeResult.buffer [])
      5 5 (by decide),
    C4_poller_deadline.2 (dfsConfig 1) (fun k => 2 * k) (fun _ => ProbeResult.buffer [])
      (fun i => ⟨[], rfl, by decide⟩) 1 (by decide)⟩

/-- C5: two-tier probe-exception policy.  At the `browserbase-reducto` call
site, a probe exception whose message contains the designated not-found
marker makes the call return 0 at once (no further probe call is possible:
the returned count is the current one); any probe exception matching neither
marker is propagated unmodified at once.  At the
`download-financial-statements` call site every probe exception is
propagated unmodified at once. -/
theorem C5_probe_exception_policy :
    (∀ (r : Nat) (elapsed : Nat → Nat) (probe : Nat → ProbeResult) (k : Nat)
        (msg : List Char) (fuel : Nat),
        elapsed k < r → probe k = ProbeResult.exn msg →
        containsSub msg notFoundMark = true →
        save_downloads_with_retry (reductoConfig r) elapsed probe (fuel + 1) k =
          some (PollOutcome.success 0, k + 1)) ∧
      (∀ (r : Nat) (elapsed : Nat → Nat) (probe : Nat → ProbeResult) (k : Nat)
        (msg : List Char) (fuel : Nat),
        elapsed k < r → probe k = ProbeResult.exn msg →
        containsSub msg notFoundMark = false → containsSub msg rpcGoneMark = false →
        save_downloads_with_retry (reductoConfig r) elapsed probe (fuel + 1) k =
          some (PollOutcome.raised msg, k + 1)) ∧
      (∀ (r : Nat) (elapsed : Nat → Nat) (probe : Nat → ProbeResult) (k : Nat)
        (msg : List Char) (fuel : Nat),
        elapsed k < r → probe k = ProbeResult.exn msg →
        save_downloads_with_retry (dfsConfig r) elapsed probe (fuel + 1) k =
          some (PollOutcome.raised msg, k + 1)) := by
  refine ⟨?_, ?_, ?_⟩
  · intro r elapsed probe k msg fuel hel hpr hmark
    rw [poll_step, if_neg (by simp [reductoConfig]; omega), hpr]
    simp only
    rw [if_pos (by simp [reductoConfig, hmark])]
  · intro r elapsed probe k msg fuel hel hpr hm1 hm2
    rw [poll_step, if_neg (by simp [reductoConfig]; omega), hpr]
    simp only
    rw [if_neg (by simp [reductoConfig, hm1, hm2])]
  · intro r elapsed probe k msg fuel hel hpr
    rw [poll_step, if_neg (by simp [dfsConfig]; omega), hpr]
    simp only
    rw [if_neg (by simp [dfsConfig])]

/-- Witness for C5: a message equal to the not-found marker is swallowed as
a 0 return; the message "boom" is re-raised by both call sites. -/
theorem C5_probe_exception_policy_witness :
    save_downloads_with_retry (reductoConfig 10) (fun _ => 0)
        (fun _ => ProbeResult.exn notFoundMark) 1 0 = some (PollOutcome.success 0, 1) ∧
      save_downloads_with_retry (reductoConfig 10) (fun _ => 0)
        (fun _ => ProbeResult.exn "boom".data) 1 0 =
          some (PollOutcome.raised "boom".data, 1) ∧
      save_downloads_with_retry (dfsConfig 10) (fun _ => 0)
        (fun _ => ProbeResult.exn "boom".data) 1 0 =
          some (PollOutcome.raised "boom".data, 1) :=
  ⟨C5_probe_exception_policy.1 10 (fun _ => 0) (fun _ => ProbeResult.exn notFoundMark)
      0 notFoundMark 0 (by decide) rfl (by decide),
    C5_probe_exception_policy.2.1 10 (fun _ => 0) (fun _ => ProbeResult.exn "boom".data)
      0 "boom".data 0 (by decide) rfl (by decide) (by decide),
    C5_probe_exception_policy.2.2 10 (fun _ => 0) (fun _ => ProbeResult.exn "boom".data)
      0 "boom".data 0 (by decide) rfl⟩

/-- C6: poller success path.  First part: for either call-site
configuration, a probe that is not ready (buffer length at or below the
threshold) on the first two attempts and ready on the third, with the
deadline not yet reached at those three iterations, makes the call return
the ready payload length after exactly 3 probe calls.  Second part: at the
`download-financial-statements` call site a ready probe result is the sole
success exit: every success outcome returns the length of some earlier probe
buffer that exceeded the threshold. -/
theorem C6_poller_success_path :
    (∀ (cfg : PollConfig) (elapsed : Nat → Nat) (probe : Nat → ProbeResult)
        (b0 b1 b2 : List Nat) (fuel : Nat),
        probe 0 = ProbeResult.buffer b0 → b0.length ≤ cfg.threshold →
        probe 1 = ProbeResult.buffer b1 → b1.length ≤ cfg.threshold →
        probe 2 = ProbeResult.buffer b2 → cfg.threshold < b2.length →
        elapsed 0 < cfg.timeoutSec → elapsed 1 < cfg.timeoutSec →
        elapsed 2 < cfg.timeoutSec →
        save_downloads_with_retry cfg elapsed probe (fuel + 3) 0 =
          some (PollOutcome.success b2.length, 3)) ∧
      (∀ (r : Nat) (elapsed : Nat → Nat) (probe : Nat → ProbeResult) (fuel k n m : Nat),
        save_downloads_with_retry (dfsConfig r) elapsed probe fuel k =
          some (PollOutcome.success n, m) →
        ∃ i b, k ≤ i ∧ i < m ∧ probe i = ProbeResult.buffer b ∧ 0 < b.length ∧
          n = b.length) := by
  constructor
  · intro cfg elapsed probe b0 b1 b2 fuel hp0 hl0 hp1 hl1 hp2 hl2 he0 he1 he2
    have hstep : fuel + 3 = (fuel + 2) + 1 := by omega
    rw [hstep, poll_step, if_neg (by omega), hp0]
    simp only
    rw [if_neg (by omega), show (0 : Nat) + 1 = 1 from rfl]
    have hstep2 : fuel + 2 = (fuel + 1) + 1 := by omega
    rw [hstep2, poll_step, if_neg (by omega), hp1]
    simp only
    rw [if_neg (by omega), show (1 : Nat) + 1 = 2 from rfl]
    rw [poll_step, if_neg (by omega), hp2]
    simp only
    rw [if_pos hl2]
  · intro r elapsed probe fuel k n m h
    exact poll_dfs_success_ready r elapsed probe fuel k n m h

/-- Witness for C6: not-ready, not-ready, then a 4-byte buffer, with
threshold 0 and timeout 10; success 4 after exactly 3 probes, and the
sole-success-exit clause applied to that same concrete run. -/
theorem C6_poller_success_path_witness :
    save_downloads_with_retry (dfsConfig 10) (fun _ => 0)
        (fun j0 => if j0 == 2 then ProbeResult.buffer [9, 9, 9, 9] else ProbeResult.buffer [])
        3 0 = some (PollOutcome.success 4, 3) ∧
      ∃ i b, 0 ≤ i ∧ i < 3 ∧
        (fun j0 => if j0 == 2 then ProbeResult.buffer [9, 9, 9, 9] else ProbeResult.buffer []) i =
          ProbeResult.buffer b ∧ 0 < b.length ∧ 4 = b.length := by
  constructor
  · exact C6_poller_success_path.1 (dfsConfig 10) (fun _ => 0)
      (fun j0 => if j0 == 2 then ProbeResult.buffer [9, 9, 9, 9] else ProbeResult.buffer [])
      [] [] [9, 9, 9, 9] 0 rfl (by decide) rfl (by decide) rfl (by decide)
      (by decide) (by decide) (by decide)
  · exact C6_poller_success_path.2 10 (fun _ => 0)
      (fun j0 => if j0 == 2 then ProbeResult.buffer [9, 9, 9, 9] else ProbeResult.buffer [])
      3 0 4 3 (by decide)

theorem generate_totp_format {s : List Char} {w : Int} {t : Nat} {out : List Char}
    (h : generate_totp s w t = Except.ok out) :
    out.length = 6 ∧ out.all Char.isDigit = true ∧
      ∃ v, v < 2 ^ 31 ∧ out = zfill 6 (natToDec (v % 1000000)) := by
  unfold generate_totp at h
  cases hd : decodeKey s with
  | error e => rw [hd] at h; exact absurd h (by simp)
  | ok key => rw [hd] at h; exact totpAtCounter_format h

set_option maxRecDepth 100000 in
/-- Known-answer check of the embedding against the RFC 6238 appendix test
vector: the standard secret (the Base32 form of the ASCII key
`12345678901234567890`) at Unix time 59 (counter 1) gives the reference
SHA-1 code 94287082, whose 6 low digits are 287082. -/
theorem generate_totp_rfc6238_vector :
    generate_totp "GEZDGNBVGY3TQOJQGEZDGNBVGY3TQOJQ".data 0 59 =
      Except.ok ['2', '8', '7', '0', '8', '2'] := rfl

/-- C1: the decoding step of `generate_totp` does NOT satisfy the claimed
contract.  The claim says decoding succeeds on every cleaned secret drawn
from the Base32 alphabet, producing the 8-bit regrouping of the 5-bit
values; the code instead regroups into 4-bit nibbles and feeds the
resulting hex string to `bytes.fromhex`, which raises `ValueError` whenever
the nibble count is odd.  At the secret `AAAA` (a legal unpadded Base32
encoding of two zero bytes, cleaned form equal to itself and inside the
alphabet) the code raises, while the spec algorithm returns the two bytes
`[0, 0]`. -/
theorem C1_decode_regroup_code_bug :
    decodeKey "AAAA".data = Except.error TotpErr.invalidHex ∧
      specBase32Decode (cleanSecret "AAAA".data) = some [0, 0] ∧
      (cleanSecret "AAAA".data).all (fun c => (b32find c).isSome) = true :=
  ⟨rfl, rfl, rfl⟩

/-- C2: the raises-iff characterisation fails in the code.  The cleaned
secret `A` lies entirely inside the Base32 alphabet, the time counter 0 is
non-negative, yet `generate_totp` fails — with the `bytes.fromhex`
`ValueError`, which is not the `InvalidSecretFormat` error of line 38. -/
theorem C2_raises_iff_code_bug :
    (cleanSecret ['A']).all (fun c => (b32find c).isSome) = true ∧
      (0 : Int) ≤ totpCounter 0 0 ∧
      generate_totp ['A'] 0 0 = Except.error TotpErr.invalidHex ∧
      TotpErr.invalidHex ≠ TotpErr.invalidSecret :=
  ⟨rfl, by decide, rfl, by decide⟩

/-- C3: output format invariant: whenever `generate_totp` succeeds, the
result is exactly 6 ASCII decimal digits: the (31-bit) dynamically
truncated value reduced mod 1000000, printed and left-padded with zeros to
width 6. -/
theorem C3_output_format (s : List Char) (w : Int) (t : Nat) (out : List Char)
    (h : generate_totp s w t = Except.ok out) :
    out.length = 6 ∧ out.all Char.isDigit = true ∧
      ∃ v, v < 2 ^ 31 ∧ out = zfill 6 (natToDec (v % 1000000)) :=
  generate_totp_format h

set_option maxRecDepth 100000 in
/-- Witness for C3 at the empty secret and time 0 (code 328482). -/
theorem C3_output_format_witness :
    (['3', '2', '8', '4', '8', '2'] : List Char).length = 6 ∧
      (['3', '2', '8', '4', '8', '2'] : List Char).all Char.isDigit = true ∧
      ∃ v, v < 2 ^ 31 ∧
        ['3', '2', '8', '4', '8', '2'] = zfill 6 (natToDec (v % 1000000)) :=
  C3_output_format [] 0 0 ['3', '2', '8', '4', '8', '2'] rfl

/-- C7: window/time shift equivalence: `generate_totp` with `window = 1` at
clock reading `t` equals `generate_totp` with `window = 0` at clock reading
`t + 30`, for every secret (valid secrets included): both paths reach the
time counter `t / 30 + 1`. -/
theorem C7_window_shift (s : List Char) (t : Nat) :
    generate_totp s 1 t = generate_totp s 0 (t + 30) := by
  have hc : totpCounter t 1 = totpCounter (t + 30) 0 := by
    unfold totpCounter
    rw [Nat.add_div_right t (by norm_num)]
    push_cast
    ring
  unfold generate_totp
  rw [hc]

set_option maxRecDepth 100000 in
/-- C8 counterexample: the claimed invariance under lowercasing fails for
non-ASCII secrets.  Python lowercases U+212A KELVIN SIGN to the ASCII `k`
while uppercasing leaves it unchanged, so for the secret
`U+212A EZDGNBVGY3TQOJQGEZDGNBVGY3TQOJQ` the cleaned form keeps the kelvin
sign (outside the alphabet) and `generate_totp` raises the base32
`ValueError`, while the lowercased secret cleans to
`KEZDGNBVGY3TQOJQGEZDGNBVGY3TQOJQ` and returns the code 850446 at Unix
time 59. -/
theorem C8_normalization_counterexample :
    generate_totp (kelvinSign :: "EZDGNBVGY3TQOJQGEZDGNBVGY3TQOJQ".data) 0 59 =
        Except.error TotpErr.invalidSecret ∧
      generate_totp ((kelvinSign :: "EZDGNBVGY3TQOJQGEZDGNBVGY3TQOJQ".data).map pyLower)
          0 59 = Except.ok ['8', '5', '0', '4', '4', '6'] ∧
      (Except.ok ['8', '5', '0', '4', '4', '6'] : Except TotpErr (List Char)) ≠
        Except.error TotpErr.invalidSecret :=
  ⟨rfl, rfl, fun h => Except.noConfusion h⟩

/-- C8 as amended: for every secret, window and time, appending any number
of trailing `=` padding characters leaves the result (success value or
error) unchanged; and for every secret made only of ASCII characters,
lowercasing also leaves the result unchanged.  The ASCII restriction is
forced by the counterexample above. -/
theorem C8_normalization_amended (s : List Char) (w : Int) (t : Nat) (k : Nat) :
    generate_totp (s ++ List.replicate k '=') w t = generate_totp s w t ∧
      ((∀ c ∈ s, c.toNat < 128) →
        generate_totp (s.map pyLower) w t = generate_totp s w t) := by
  constructor
  · unfold generate_totp decodeKey
    rw [cleanSecret_pad]
  · intro hascii
    unfold generate_totp decodeKey
    rw [cleanSecret_lower_ascii hascii]

/-- Witness for the amended C8 at the ASCII secret `AB`, two pad characters,
window 0, time 0. -/
theorem C8_normalization_amended_witness :
    generate_totp ("AB".data ++ List.replicate 2 '=') 0 0 = generate_totp "AB".data 0 0 ∧
      generate_totp ("AB".data.map pyLower) 0 0 = generate_totp "AB".data 0 0 :=
  ⟨(C8_normalization_amended "AB".data 0 0 2).1,
    (C8_normalization_amended "AB".data 0 0 2).2 (by decide)⟩

/-- C9: the empty secret, and any secret made only of `=` padding, is
accepted: it decodes to the empty key and (at the default window 0, for any
clock reading whose counter fits in 64 bits) the function returns a 6-digit
code. -/
theorem C9_empty_secret (k t : Nat) (h64 : t / 30 < 2 ^ 64) :
    decodeKey (List.replicate k '=') = Except.ok [] ∧
      ∃ out, generate_totp (List.replicate k '=') 0 t = Except.ok out ∧
        out.length = 6 ∧ out.all Char.isDigit = true := by
  have hclean : cleanSecret (List.replicate k '=') = [] := by
    unfold cleanSecret
    rw [List.map_replicate, show pyUpper '=' = '=' from by decide]
    unfold rstripEq
    rw [List.reverse_replicate]
    have hrep := dropWhile_replicate_append k []
    simp only [List.append_nil] at hrep
    rw [hrep]
    rfl
  have hdec : decodeKey (List.replicate k '=') = Except.ok [] := by
    unfold decodeKey
    rw [hclean]
    rfl
  refine ⟨hdec, ?_⟩
  have hok : generate_totp (List.replicate k '=') 0 t =
      totpAtCounter [] (totpCounter t 0) := by
    unfold generate_totp
    rw [hdec]
  have hnneg : ¬ totpCounter t 0 < 0 := by
    unfold totpCounter
    omega
  have hlt : ¬ (2 : Int) ^ 64 ≤ totpCounter t 0 := by
    unfold totpCounter
    have h2 : (2 : Int) ^ 64 = 18446744073709551616 := by norm_num
    have h2n : (2 : Nat) ^ 64 = 18446744073709551616 := by norm_num
    rw [h2]
    rw [h2n] at h64
    omega
  obtain ⟨out, hout⟩ : ∃ out, totpAtCounter [] (totpCounter t 0) = Except.ok out := by
    unfold totpAtCounter
    rw [if_neg hnneg, if_neg hlt]
    exact ⟨_, rfl⟩
  have hfmt := generate_totp_format (hok.trans hout)
  exact ⟨out, hok.trans hout, hfmt.1, hfmt.2.1⟩

set_option maxRecDepth 100000 in
/-- Witness for C9 at two `=` characters and time 59. -/
theorem C9_empty_secret_witness :
    decodeKey (List.replicate 2 '=') = Except.ok [] ∧
      ∃ out, generate_totp (List.replicate 2 '=') 0 59 = Except.ok out ∧
        out.length = 6 ∧ out.all Char.isDigit = true :=
  C9_empty_secret 2 59 (by norm_num)

/-- C10 counterexample: the claim quantifies over every secret, but a secret
with a character outside the alphabet fails with the base32 `ValueError`
before the counter is ever serialized, even when the counter is negative:
at secret `1`, window -1, time 0 the counter is negative yet the error is
`invalidSecret`, not `overflow`. -/
theorem C10_negative_counter_not_universal :
    totpCounter 0 (-1) < 0 ∧
      generate_totp ['1'] (-1) 0 = Except.error TotpErr.invalidSecret ∧
      generate_totp ['1'] (-1) 0 ≠ Except.error TotpErr.overflow := by
  refine ⟨by decide, rfl, ?_⟩
  intro hcon
  have h1 : Except.error TotpErr.invalidSecret =
      (Except.error TotpErr.overflow : Except TotpErr (List Char)) :=
    Eq.trans (Eq.symm rfl) hcon
  injection h1 with h2
  exact absurd h2 (by decide)

/-- C10 as amended: for every secret whose decoding succeeds, whenever the
time counter `t / 30 + window` is negative, `generate_totp` fails with the
`OverflowError` from `int.to_bytes` — a failure mode distinct from
`InvalidSecretFormat`. -/
theorem C10_negative_counter_overflow (s : List Char) (w : Int) (t : Nat)
    (key : List Nat) (hdec : decodeKey s = Except.ok key)
    (hneg : totpCounter t w < 0) :
    generate_totp s w t = Except.error TotpErr.overflow := by
  unfold generate_totp
  rw [hdec]
  simp only
  unfold totpAtCounter
  rw [if_pos hneg]

/-- Witness for the amended C10 at the empty secret, window -1, time 0. -/
theorem C10_negative_counter_overflow_witness :
    generate_totp [] (-1) 0 = Except.error TotpErr.overflow :=
  C10_negative_counter_overflow [] (-1) 0 [] rfl (by decide)
